import Mathlib

/-!
Verification of the journal store and request gateway of the EDITOR
repository (src/src/main/database.js and the main-process handler file).

The embedding models:
* JavaScript values reaching the serialization boundary (`JSValue`),
* the platform `JSON.stringify` / `JSON.parse` pair used by the gateway
  (`stringifyVal`, `jsonParse`), faithful to the JSON grammar accepted by
  `JSON.parse` (string escapes including surrogate pairs, number tokens,
  rejection of unescaped control characters, leading-zero rule),
* the sqlite-backed store operations of `journalOperations`
  (`createJournal`, `getAllJournals`, `getJournalById`, `updateJournal`,
  `deleteJournal`, `autoSaveJournal`), with the shared connection as an
  `Option` state and timestamps as naturals supplied by the caller,
* the ipc gateway handlers (`handleGetJournal`, `handleGetAllJournals`,
  `handleCreateJournal`, `handleUpdateJournal`, `handleDeleteJournal`,
  `handleAutoSaveJournal`).
-/

namespace Editor

/-- A JavaScript value at the gateway boundary. `undef` stands for a missing
or `undefined` property. Numbers are kept as their decimal token (the
gateway never inspects numeric values, only their text). Objects are
key-value lists in insertion order. -/
inductive JSValue where
  | undef : JSValue
  | null : JSValue
  | bool (b : Bool) : JSValue
  | num (lex : String) : JSValue
  | str (s : String) : JSValue
  | arr (elems : List JSValue) : JSValue
  | obj (fields : List (String × JSValue)) : JSValue

/-- Truthiness combined with the object type check of the gateway
(typeof object, and truthy): arrays and plain objects pass; null has
object type but is falsy. -/
def JSValue.isTruthyObject : JSValue → Bool
  | .arr _ => true
  | .obj _ => true
  | _ => false

def JSValue.isUndef : JSValue → Bool
  | .undef => true
  | _ => false

/-! ## JSON.stringify model -/

/-- Lowercase hexadecimal digit, as emitted inside `\u00XX` escapes. -/
def hexDigit (n : Nat) : Char :=
  if n < 10 then Char.ofNat (48 + n) else Char.ofNat (97 + (n - 10))

/-- JSON string escaping of one character, as `JSON.stringify` performs it:
quote and backslash get a backslash escape, the five control shortcuts are
used when available, remaining control characters become `\u00XX`, and
every other character is emitted verbatim. -/
def escapeChar (c : Char) : List Char :=
  if c = '"' then ['\\', '"']
  else if c = '\\' then ['\\', '\\']
  else if c = Char.ofNat 8 then ['\\', 'b']
  else if c = Char.ofNat 9 then ['\\', 't']
  else if c = Char.ofNat 10 then ['\\', 'n']
  else if c = Char.ofNat 12 then ['\\', 'f']
  else if c = Char.ofNat 13 then ['\\', 'r']
  else if c.toNat < 32 then
    ['\\', 'u', '0', '0', hexDigit (c.toNat / 16), hexDigit (c.toNat % 16)]
  else [c]

def escChars : List Char → List Char
  | [] => []
  | c :: cs => escapeChar c ++ escChars cs

/-- A JSON string literal: quote, escaped body, quote. -/
def quoteStr (s : String) : List Char := '"' :: (escChars s.data ++ ['"'])

/-- Characters of the null keyword. -/
def nullChars : List Char := ['n', 'u', 'l', 'l']

/-- Characters of the two boolean keywords. -/
def boolChars (b : Bool) : List Char :=
  if b then ['t', 'r', 'u', 'e'] else ['f', 'a', 'l', 's', 'e']

/-- Comma-join rendered pieces, as `JSON.stringify` separates elements. -/
def joinComma : List (List Char) → List Char
  | [] => []
  | [p] => p
  | p :: ps => p ++ ',' :: joinComma ps

mutual

/-- Model of `JSON.stringify`: the rendering of a value, as characters. The `undef` case is
only ever reached as an array element, where `JSON.stringify` emits `null`;
object properties with `undefined` values are skipped (in `stringifyFields`),
and the gateway only invokes stringification on arrays and objects. -/
def stringifyVal : JSValue → List Char
  | .undef => nullChars
  | .null => nullChars
  | .bool b => boolChars b
  | .num lex => lex.data
  | .str s => quoteStr s
  | .arr es => '[' :: (joinComma (stringifyElems es) ++ [']'])
  | .obj fs => '{' :: (joinComma (stringifyFields fs) ++ ['}'])

def stringifyElems : List JSValue → List (List Char)
  | [] => []
  | e :: es => stringifyVal e :: stringifyElems es

def stringifyFields : List (String × JSValue) → List (List Char)
  | [] => []
  | (k, v) :: fs =>
    if v.isUndef then stringifyFields fs
    else (quoteStr k ++ ':' :: stringifyVal v) :: stringifyFields fs

end

/-! ## JSON.parse model -/

/-- The whitespace characters the JSON grammar allows between tokens. -/
def isJsonWs (c : Char) : Bool :=
  c = ' ' || c = Char.ofNat 9 || c = Char.ofNat 10 || c = Char.ofNat 13

def skipWs : List Char → List Char
  | [] => []
  | c :: cs => if isJsonWs c then skipWs cs else c :: cs

def hexVal (c : Char) : Option Nat :=
  if 48 ≤ c.toNat ∧ c.toNat ≤ 57 then some (c.toNat - 48)
  else if 97 ≤ c.toNat ∧ c.toNat ≤ 102 then some (c.toNat - 87)
  else if 65 ≤ c.toNat ∧ c.toNat ≤ 70 then some (c.toNat - 55)
  else none

def hex4 (a b c d : Char) : Option Nat :=
  match hexVal a, hexVal b, hexVal c, hexVal d with
  | some va, some vb, some vc, some vd => some (((va * 16 + vb) * 16 + vc) * 16 + vd)
  | _, _, _, _ => none

/-- The single-character escapes of the JSON grammar. -/
def escSimple (e : Char) : Option Char :=
  if e = '"' then some '"'
  else if e = '\\' then some '\\'
  else if e = '/' then some '/'
  else if e = 'b' then some (Char.ofNat 8)
  else if e = 'f' then some (Char.ofNat 12)
  else if e = 'n' then some (Char.ofNat 10)
  else if e = 'r' then some (Char.ofNat 13)
  else if e = 't' then some (Char.ofNat 9)
  else none

/-- Body of a JSON string literal after the opening quote: decoded
characters up to the closing quote, and the remaining input. Unescaped
control characters are rejected, as `JSON.parse` rejects them. A `\uXXXX`
escape denoting a surrogate (not a unicode scalar value, hence not a Lean
`Char`) decodes to U+FFFD; this diverges from the UTF-16 pairing JavaScript
performs only in the decoded characters, never in acceptance, and the
gateway stores no surrogate escapes, so no claim observes the difference. -/
def parseStrBody : List Char → Option (List Char × List Char)
  | [] => none
  | c :: cs =>
    if c = '"' then some ([], cs)
    else if c = '\\' then
      match cs with
      | [] => none
      | e :: cs1 =>
        if e = 'u' then
          match cs1 with
          | h1 :: h2 :: h3 :: h4 :: cs2 =>
            match hex4 h1 h2 h3 h4 with
            | none => none
            | some n =>
              if 55296 ≤ n ∧ n ≤ 57343 then
                match parseStrBody cs2 with
                | some (ds, r) => some (Char.ofNat 65533 :: ds, r)
                | none => none
              else
                match parseStrBody cs2 with
                | some (ds, r) => some (Char.ofNat n :: ds, r)
                | none => none
          | _ => none
        else
          match escSimple e with
          | some d =>
            match parseStrBody cs1 with
            | some (ds, r) => some (d :: ds, r)
            | none => none
          | none => none
    else if c.toNat < 32 then none
    else
      match parseStrBody cs with
      | some (ds, r) => some (c :: ds, r)
      | none => none

def takeDigits : List Char → List Char × List Char
  | [] => ([], [])
  | c :: cs =>
    if c.isDigit then
      let (ds, r) := takeDigits cs
      (c :: ds, r)
    else ([], c :: cs)

/-- Exponent part of a number token, if present; appends to the lexeme. -/
def scanExp (lex : List Char) (cs : List Char) : Option (String × List Char) :=
  match cs with
  | c :: r =>
    if c = 'e' ∨ c = 'E' then
      match r with
      | c1 :: r1 =>
        if c1 = '+' ∨ c1 = '-' then
          match takeDigits r1 with
          | ([], _) => none
          | (ds, r2) => some (⟨lex ++ c :: c1 :: ds⟩, r2)
        else
          match takeDigits r with
          | ([], _) => none
          | (ds, r2) => some (⟨lex ++ c :: ds⟩, r2)
      | [] => none
    else some (⟨lex⟩, cs)
  | [] => some (⟨lex⟩, [])

/-- Fraction and exponent parts of a number token, if present. -/
def scanFrac (lex : List Char) (cs : List Char) : Option (String × List Char) :=
  match cs with
  | c :: r =>
    if c = '.' then
      match takeDigits r with
      | ([], _) => none
      | (ds, r2) => scanExp (lex ++ c :: ds) r2
    else scanExp lex cs
  | [] => scanExp lex []

/-- A JSON number token starting at the input, as its lexeme: optional
minus sign, then `0` or a nonzero-led digit run, then optional fraction and
exponent. Leading zeros are rejected by construction (after `0` the integer
part ends). -/
def parseNumLex (cs : List Char) : Option (String × List Char) :=
  let sgncs : List Char × List Char :=
    match cs with
    | c :: r => if c = '-' then (['-'], r) else ([], cs)
    | [] => ([], cs)
  match sgncs.2 with
  | [] => none
  | d :: r =>
    if d = '0' then scanFrac (sgncs.1 ++ ['0']) r
    else if d.isDigit then
      let (ds, r2) := takeDigits r
      scanFrac (sgncs.1 ++ d :: ds) r2
    else none

mutual

/-- One JSON value starting at the input (leading whitespace allowed), with
the remaining input. Structural on the fuel; the top-level entry point
supplies more fuel than any input can consume, so exhaustion never rejects
an input `JSON.parse` would accept. -/
def parseVal : Nat → List Char → Option (JSValue × List Char)
  | 0, _ => none
  | fuel + 1, cs =>
    match skipWs cs with
    | [] => none
    | c :: r =>
      if c = '"' then
        match parseStrBody r with
        | some (ds, r1) => some (JSValue.str ⟨ds⟩, r1)
        | none => none
      else if c = '[' then
        match skipWs r with
        | [] => none
        | c1 :: r1 =>
          if c1 = ']' then some (JSValue.arr [], r1)
          else
            match parseElems fuel (c1 :: r1) with
            | some (vs, r2) => some (JSValue.arr vs, r2)
            | none => none
      else if c = '{' then
        match skipWs r with
        | [] => none
        | c1 :: r1 =>
          if c1 = '}' then some (JSValue.obj [], r1)
          else
            match parseMembers fuel (c1 :: r1) with
            | some (ms, r2) => some (JSValue.obj ms, r2)
            | none => none
      else if c = 't' then
        match r with
        | c1 :: c2 :: c3 :: r1 =>
          if c1 = 'r' ∧ c2 = 'u' ∧ c3 = 'e' then some (JSValue.bool true, r1) else none
        | _ => none
      else if c = 'f' then
        match r with
        | c1 :: c2 :: c3 :: c4 :: r1 =>
          if c1 = 'a' ∧ c2 = 'l' ∧ c3 = 's' ∧ c4 = 'e' then some (JSValue.bool false, r1)
          else none
        | _ => none
      else if c = 'n' then
        match r with
        | c1 :: c2 :: c3 :: r1 =>
          if c1 = 'u' ∧ c2 = 'l' ∧ c3 = 'l' then some (JSValue.null, r1) else none
        | _ => none
      else if c = '-' ∨ c.isDigit then
        match parseNumLex (c :: r) with
        | some (lex, r1) => some (JSValue.num lex, r1)
        | none => none
      else none

/-- One-or-more comma-separated array elements followed by `]` (the empty
array is handled in `parseVal`). -/
def parseElems : Nat → List Char → Option (List JSValue × List Char)
  | 0, _ => none
  | fuel + 1, cs =>
    match parseVal fuel cs with
    | none => none
    | some (v, r) =>
      match skipWs r with
      | [] => none
      | c :: r1 =>
        if c = ',' then
          match parseElems fuel r1 with
          | some (vs, r2) => some (v :: vs, r2)
          | none => none
        else if c = ']' then some ([v], r1)
        else none

/-- One-or-more comma-separated object members followed by `}` (the empty
object is handled in `parseVal`). -/
def parseMembers : Nat → List Char → Option (List (String × JSValue) × List Char)
  | 0, _ => none
  | fuel + 1, cs =>
    match skipWs cs with
    | [] => none
    | c :: r =>
      if c = '"' then
        match parseStrBody r with
        | none => none
        | some (ks, r1) =>
          match skipWs r1 with
          | [] => none
          | c1 :: r2 =>
            if c1 = ':' then
              match parseVal fuel r2 with
              | none => none
              | some (v, r3) =>
                match skipWs r3 with
                | [] => none
                | c2 :: r4 =>
                  if c2 = ',' then
                    match parseMembers fuel r4 with
                    | some (ms, r5) => some ((⟨ks⟩, v) :: ms, r5)
                    | none => none
                  else if c2 = '}' then some ([(⟨ks⟩, v)], r4)
                  else none
            else none
      else none

end

/-- Model of `JSON.parse` as the gateway uses it: `none` exactly when `JSON.parse`
would throw. The fuel exceeds the input length, and every recursive descent
consumes at least one input character first, so the fuel never runs out on
an input the grammar accepts. -/
def jsonParse (s : String) : Option JSValue :=
  match parseVal (s.length + 1) s.data with
  | some (v, r) => if (skipWs r).isEmpty then some v else none
  | none => none

/-! ## The store (journalOperations in database.js)

The `journals` table is a list of rows in rowid (insertion) order; the
shared connection is an `Option` that is `none` until `initialize`
succeeds. `CURRENT_TIMESTAMP` and `datetime('now')` are the `now` argument
each operation takes. Mutating operations return the statement outcome
together with the possibly changed connection state, so that what an
operation leaves untouched is explicit. -/

/-- A stored row. `content` is the TEXT column: `none` is sql NULL. -/
structure Row where
  id : String
  title : String
  content : Option String
  created_at : Nat
  updated_at : Nat
  is_published : Bool
deriving Repr, DecidableEq

/-- A value bound to a named sql parameter. `missing` records a property
absent from the bound object (better-sqlite3 raises a missing named
parameter error at run time); `invalid` records a value the driver cannot
bind (such as a boolean or an object). -/
inductive SqlParam where
  | missing : SqlParam
  | invalid : SqlParam
  | null : SqlParam
  | text (s : String) : SqlParam
deriving Repr, DecidableEq

/-- The record bound by the insert, update and upsert statements:
`@id`, `@title`, `@content`. The gateway always supplies `id` as a string. -/
structure StoreRecord where
  id : String
  title : SqlParam
  content : SqlParam
deriving Repr, DecidableEq

inductive StoreError where
  | notInitialized : StoreError
  | missingParam : StoreError
  | invalidBind : StoreError
  | primaryKey : StoreError
  | notNullTitle : StoreError
deriving Repr, DecidableEq

/-- Outcome of a statement run: the number of rows the statement changed. -/
structure RunResult where
  changes : Nat
deriving Repr, DecidableEq

/-- Binding failure of the `@title` / `@content` parameters, checked when
the statement runs (hence after the connection check, before any row is
touched). -/
def bindErr? (r : StoreRecord) : Option StoreError :=
  if r.title = SqlParam.missing ∨ r.content = SqlParam.missing then some StoreError.missingParam
  else if r.title = SqlParam.invalid ∨ r.content = SqlParam.invalid then
    some StoreError.invalidBind
  else none

/-- The TEXT column value a bindable content parameter stores. -/
def storedText : SqlParam → Option String
  | SqlParam.text s => some s
  | _ => none

/-- Model of the initialize operation: opens the database and creates the
table on first use (an empty table on a fresh file), and is a no-op once a
connection is live. Directory and permission self-healing of
`initializeDatabase` concern the filesystem, outside this model, hence the
success flag is always true here. -/
def initDatabase : Option (List Row) → Bool × Option (List Row)
  | some st => (true, some st)
  | none => (true, some [])

/-- The statement `INSERT INTO journals (id, title, content) VALUES (@id,
@title, @content)`: fails on a duplicate id (primary key) or a null title
(NOT NULL); `created_at`, `updated_at` and `is_published` take their
column defaults. -/
def createJournal (db : Option (List Row)) (now : Nat) (r : StoreRecord) :
    Except StoreError RunResult × Option (List Row) :=
  match db with
  | none => (Except.error StoreError.notInitialized, none)
  | some st =>
    match bindErr? r with
    | some e => (Except.error e, some st)
    | none =>
      if st.any (fun row => row.id == r.id) then (Except.error StoreError.primaryKey, some st)
      else
        match r.title with
        | SqlParam.text t =>
          (Except.ok ⟨1⟩, some (st ++ [⟨r.id, t, storedText r.content, now, now, false⟩]))
        | _ => (Except.error StoreError.notNullTitle, some st)

/-- The query `SELECT * FROM journals ORDER BY updated_at DESC`. -/
def getAllJournals (db : Option (List Row)) : Except StoreError (List Row) :=
  match db with
  | none => Except.error StoreError.notInitialized
  | some st =>
    Except.ok (st.mergeSort (fun a b => decide (b.updated_at ≤ a.updated_at)))

/-- The query `SELECT * FROM journals WHERE id = ?` through `stmt.get`: the first
matching row, or nothing. -/
def getJournalById (db : Option (List Row)) (id : String) : Except StoreError (Option Row) :=
  match db with
  | none => Except.error StoreError.notInitialized
  | some st => Except.ok (st.find? (fun row => row.id == id))

/-- The statement `UPDATE journals SET title = @title, content = @content,
updated_at = CURRENT_TIMESTAMP WHERE id = @id`: rewrites every matching row (zero rows
when the id is absent), leaving `created_at` and `is_published` alone. -/
def updateJournal (db : Option (List Row)) (now : Nat) (r : StoreRecord) :
    Except StoreError RunResult × Option (List Row) :=
  match db with
  | none => (Except.error StoreError.notInitialized, none)
  | some st =>
    match bindErr? r with
    | some e => (Except.error e, some st)
    | none =>
      let n := st.countP (fun row => row.id == r.id)
      if n = 0 then (Except.ok ⟨0⟩, some st)
      else
        match r.title with
        | SqlParam.text t =>
          (Except.ok ⟨n⟩, some (st.map (fun row =>
            if row.id == r.id then
              { row with title := t, content := storedText r.content, updated_at := now }
            else row)))
        | _ => (Except.error StoreError.notNullTitle, some st)

/-- The statement `DELETE FROM journals WHERE id = ?`. -/
def deleteJournal (db : Option (List Row)) (id : String) :
    Except StoreError RunResult × Option (List Row) :=
  match db with
  | none => (Except.error StoreError.notInitialized, none)
  | some st =>
    (Except.ok ⟨st.countP (fun row => row.id == id)⟩,
     some (st.filter (fun row => !(row.id == id))))

/-- The statement `INSERT OR REPLACE INTO journals (id, title, content,
updated_at) VALUES (@id, @title, @content, datetime(now))`: any existing row with the
id is deleted and a fresh row is inserted at the end, so the columns not in
the list — `created_at` and `is_published` — take their defaults again. -/
def autoSaveJournal (db : Option (List Row)) (now : Nat) (r : StoreRecord) :
    Except StoreError RunResult × Option (List Row) :=
  match db with
  | none => (Except.error StoreError.notInitialized, none)
  | some st =>
    match bindErr? r with
    | some e => (Except.error e, some st)
    | none =>
      match r.title with
      | SqlParam.text t =>
        (Except.ok ⟨1⟩,
         some (st.filter (fun row => !(row.id == r.id))
           ++ [⟨r.id, t, storedText r.content, now, now, false⟩]))
      | _ => (Except.error StoreError.notNullTitle, some st)

/-! ## The request gateway (ipcMain handlers in the main process) -/

inductive GwError where
  | invalidJournalData : GwError
  | journalIdRequired : GwError
  | store (e : StoreError) : GwError
deriving Repr, DecidableEq

/-- The journal-shaped payload a handler receives. `none` in `id` / `title`
is an absent (or undefined) property; `undef` in `content` likewise. -/
structure JournalInput where
  id : Option String
  title : Option String
  content : JSValue

/-- JavaScript falsiness of an optional string property: absent, or the
empty string. -/
def falsyOptStr : Option String → Bool
  | none => true
  | some s => s == ""

/-- A row as a read handler returns it: `content` has been turned back
into a JavaScript value where the handler parsed it. -/
structure RowOut where
  id : String
  title : String
  content : JSValue
  created_at : Nat
  updated_at : Nat
  is_published : Bool

/-- The default structure substituted when parsing stored content fails. -/
def emptyContent : JSValue :=
  JSValue.obj
    [("bullets", JSValue.arr []), ("images", JSValue.arr []), ("videos", JSValue.arr [])]

/-- The content transform of the read handlers: a stored string is parsed
only when truthy (non-empty); parse failure yields the empty structure;
NULL and the empty string pass through untouched. -/
def parseContentField : Option String → JSValue
  | none => JSValue.null
  | some s =>
    if s = "" then JSValue.str s
    else
      match jsonParse s with
      | some v => v
      | none => emptyContent

def transformRow (r : Row) : RowOut :=
  ⟨r.id, r.title, parseContentField r.content, r.created_at, r.updated_at, r.is_published⟩

/-- The content serialization of the write handlers: a truthy object is
stringified; anything else is forwarded untouched. -/
def serializeContent (v : JSValue) : JSValue :=
  if v.isTruthyObject then JSValue.str ⟨stringifyVal v⟩ else v

/-- What binding a JavaScript value to the `@content` parameter stores.
better-sqlite3 binds a number numerically and the TEXT affinity of the
column stores its decimal text, modelled as the kept lexeme; booleans,
arrays and plain objects cannot be bound. -/
def jsToParam : JSValue → SqlParam
  | JSValue.undef => SqlParam.missing
  | JSValue.null => SqlParam.null
  | JSValue.bool _ => SqlParam.invalid
  | JSValue.num lex => SqlParam.text lex
  | JSValue.str s => SqlParam.text s
  | JSValue.arr _ => SqlParam.invalid
  | JSValue.obj _ => SqlParam.invalid

/-- The title parameter an input record binds. -/
def titleParam : Option String → SqlParam
  | some t => SqlParam.text t
  | none => SqlParam.missing

/-- Handler for the get-journal request: requires a truthy id, then parses the
stored content of the found row (when truthy) back into a value. -/
def handleGetJournal (db : Option (List Row)) (id : Option String) :
    Except GwError (Option RowOut) :=
  match id with
  | none => Except.error GwError.journalIdRequired
  | some i =>
    if i = "" then Except.error GwError.journalIdRequired
    else
      match getJournalById db i with
      | Except.error e => Except.error (GwError.store e)
      | Except.ok none => Except.ok none
      | Except.ok (some row) => Except.ok (some (transformRow row))

/-- Handler for the get-all-journals request: every returned row gets the same
content transform. -/
def handleGetAllJournals (db : Option (List Row)) : Except GwError (List RowOut) :=
  match getAllJournals db with
  | Except.error e => Except.error (GwError.store e)
  | Except.ok rows => Except.ok (rows.map transformRow)

/-- Handler for the create-journal request: requires a truthy title, replaces
any caller-supplied id with a freshly minted uuid (the `freshId`
argument), stringifies object content, and forwards to the store. -/
def handleCreateJournal (db : Option (List Row)) (now : Nat) (freshId : String)
    (input : Option JournalInput) : Except GwError RunResult × Option (List Row) :=
  match input with
  | none => (Except.error GwError.invalidJournalData, db)
  | some j =>
    if falsyOptStr j.title then (Except.error GwError.invalidJournalData, db)
    else
      let out := createJournal db now
        ⟨freshId, titleParam j.title, jsToParam (serializeContent j.content)⟩
      (out.1.mapError GwError.store, out.2)

/-- Handler for the update-journal request: requires a truthy id, stringifies
object content, and forwards to the store. -/
def handleUpdateJournal (db : Option (List Row)) (now : Nat)
    (input : Option JournalInput) : Except GwError RunResult × Option (List Row) :=
  match input with
  | none => (Except.error GwError.invalidJournalData, db)
  | some j =>
    if falsyOptStr j.id then (Except.error GwError.invalidJournalData, db)
    else
      let out := updateJournal db now
        ⟨j.id.getD "", titleParam j.title, jsToParam (serializeContent j.content)⟩
      (out.1.mapError GwError.store, out.2)

/-- Handler for the delete-journal request: requires a truthy id. -/
def handleDeleteJournal (db : Option (List Row)) (id : Option String) :
    Except GwError RunResult × Option (List Row) :=
  match id with
  | none => (Except.error GwError.journalIdRequired, db)
  | some i =>
    if i = "" then (Except.error GwError.journalIdRequired, db)
    else
      let out := deleteJournal db i
      (out.1.mapError GwError.store, out.2)

/-- Handler for the auto-save-journal request: requires a truthy id,
stringifies object content, and forwards to the upsert. -/
def handleAutoSaveJournal (db : Option (List Row)) (now : Nat)
    (input : Option JournalInput) : Except GwError RunResult × Option (List Row) :=
  match input with
  | none => (Except.error GwError.invalidJournalData, db)
  | some j =>
    if falsyOptStr j.id then (Except.error GwError.invalidJournalData, db)
    else
      let out := autoSaveJournal db now
        ⟨j.id.getD "", titleParam j.title, jsToParam (serializeContent j.content)⟩
      (out.1.mapError GwError.store, out.2)

/-! ## The structured content values of the specification -/

/-- The content structure of the glossary:
bullet texts, image references, video references. -/
structure ContentStruct where
  bullets : List String
  images : List String
  videos : List String

/-- The JavaScript object carrying a content structure. -/
def ContentStruct.toJS (c : ContentStruct) : JSValue :=
  JSValue.obj
    [("bullets", JSValue.arr (c.bullets.map JSValue.str)),
     ("images", JSValue.arr (c.images.map JSValue.str)),
     ("videos", JSValue.arr (c.videos.map JSValue.str))]

/-- Every row of a store state carries `is_published = false`; the
invariant of every state the exposed operations can reach. -/
def AllUnpublished (st : List Row) : Prop :=
  ∀ row ∈ st, row.is_published = false

/-! ## Round-trip of the serialization boundary

`jsonParse` inverts `stringifyVal` on every content structure, so a value
written by a write handler is recovered exactly by a read handler. -/

theorem skipWs_cons {c : Char} (h : isJsonWs c = false) (cs : List Char) :
    skipWs (c :: cs) = c :: cs := by
  simp [skipWs, h]

theorem hexVal_hexDigit {k : Nat} (h : k < 16) : hexVal (hexDigit k) = some k := by
  interval_cases k <;> decide

/-- Parsing one escaped character undoes its escaping and continues. -/
theorem parseStrBody_escapeChar (c : Char) (tail : List Char) :
    parseStrBody (escapeChar c ++ tail)
      = (parseStrBody tail).map (fun p => (c :: p.1, p.2)) := by
  rw [escapeChar]
  split_ifs with h1 h2 h3 h4 h5 h6 h7 h8
  · subst h1
    rw [parseStrBody.eq_def]
    simp [escSimple]
    cases parseStrBody tail <;> simp
  · subst h2
    rw [parseStrBody.eq_def]
    simp [escSimple]
    cases parseStrBody tail <;> simp
  · subst h3
    rw [parseStrBody.eq_def]
    simp [escSimple]
    cases parseStrBody tail <;> simp
  · subst h4
    rw [parseStrBody.eq_def]
    simp [escSimple]
    cases parseStrBody tail <;> simp
  · subst h5
    rw [parseStrBody.eq_def]
    simp [escSimple]
    cases parseStrBody tail <;> simp
  · subst h6
    rw [parseStrBody.eq_def]
    simp [escSimple]
    cases parseStrBody tail <;> simp
  · subst h7
    rw [parseStrBody.eq_def]
    simp [escSimple]
    cases parseStrBody tail <;> simp
  · have hdiv : c.toNat / 16 < 16 := by omega
    have hmod : c.toNat % 16 < 16 := by omega
    have h0 : hexVal '0' = some 0 := by decide
    have hhex : hex4 '0' '0' (hexDigit (c.toNat / 16)) (hexDigit (c.toNat % 16))
        = some c.toNat := by
      simp only [hex4, h0, hexVal_hexDigit hdiv, hexVal_hexDigit hmod]
      congr 1
      omega
    rw [parseStrBody.eq_def]
    simp only [List.cons_append, List.nil_append]
    simp [hhex]
    rw [if_neg (by omega : ¬(55296 ≤ c.toNat ∧ c.toNat ≤ 57343))]
    cases parseStrBody tail <;> simp [Char.ofNat_toNat]
  · rw [parseStrBody.eq_def]
    simp only [List.cons_append, List.nil_append]
    simp [h1, h2, h8]
    cases parseStrBody tail <;> simp

/-- Parsing a string body undoes `JSON.stringify` escaping, stopping at
the closing quote. -/
theorem parseStrBody_escChars : ∀ (cs rest : List Char),
    parseStrBody (escChars cs ++ '"' :: rest) = some (cs, rest)
  | [], rest => by
    rw [escChars, List.nil_append, parseStrBody.eq_def]
    simp
  | c :: cs, rest => by
    rw [escChars, List.append_assoc, parseStrBody_escapeChar,
      parseStrBody_escChars cs rest]
    rfl

/-- Parsing a rendered string literal recovers the string. -/
theorem parseVal_quoteStr (f : Nat) (s : String) (rest : List Char) :
    parseVal (f + 1) (quoteStr s ++ rest) = some (JSValue.str s, rest) := by
  rw [quoteStr, parseVal.eq_def]
  simp only [List.cons_append, List.append_assoc, List.cons_append, List.nil_append]
  rw [skipWs_cons (by decide)]
  simp [parseStrBody_escChars s.data rest]

theorem stringifyVal_str (s : String) : stringifyVal (JSValue.str s) = quoteStr s := by
  rw [stringifyVal]

theorem stringifyVal_arr (es : List JSValue) :
    stringifyVal (JSValue.arr es) = '[' :: (joinComma (stringifyElems es) ++ [']']) := by
  rw [stringifyVal]

theorem stringifyVal_obj (fs : List (String × JSValue)) :
    stringifyVal (JSValue.obj fs) = '{' :: (joinComma (stringifyFields fs) ++ ['}']) := by
  rw [stringifyVal]

/-- Parsing the rendered elements of a nonempty string array recovers
them, consuming the closing bracket. -/
theorem parseElems_strList : ∀ (l : List String) (f : Nat) (rest : List Char),
    l ≠ [] → l.length < f →
    parseElems f (joinComma (stringifyElems (l.map JSValue.str)) ++ ']' :: rest)
      = some (l.map JSValue.str, rest)
  | [], _, _, hne, _ => absurd rfl hne
  | [s], f, rest, _, hf => by
    match f, hf with
    | f + 2, _ =>
      rw [List.map_cons, List.map_nil, stringifyElems, stringifyElems, stringifyVal_str]
      rw [show joinComma [quoteStr s] = quoteStr s from rfl]
      rw [parseElems.eq_def]
      rw [show f + 2 = (f + 1) + 1 from rfl]
      simp only [parseVal_quoteStr]
      rw [skipWs_cons (by decide)]
      simp
  | s :: s2 :: tl, f, rest, _, hf => by
    match f, hf with
    | f + 2, hf =>
      have ih := parseElems_strList (s2 :: tl) (f + 1) rest (by simp) (by
        simp only [List.length_cons] at hf ⊢
        omega)
      rw [List.map_cons, stringifyElems, stringifyVal_str]
      rw [show joinComma (quoteStr s :: stringifyElems ((s2 :: tl).map JSValue.str))
          = quoteStr s ++ ',' :: joinComma (stringifyElems ((s2 :: tl).map JSValue.str))
          from by
        rw [List.map_cons, stringifyElems, joinComma]
        simp]
      rw [parseElems.eq_def]
      rw [show f + 2 = (f + 1) + 1 from rfl]
      rw [List.append_assoc, List.cons_append]
      simp only [parseVal_quoteStr]
      rw [skipWs_cons (by decide)]
      simp only [ih]
      simp

/-- Parsing a rendered string array recovers it. -/
theorem parseVal_arrStr : ∀ (l : List String) (f : Nat) (rest : List Char),
    l.length + 1 < f →
    parseVal f (stringifyVal (JSValue.arr (l.map JSValue.str)) ++ rest)
      = some (JSValue.arr (l.map JSValue.str), rest)
  | [], f, rest, hf => by
    match f, hf with
    | f + 2, _ =>
      rw [show stringifyVal (JSValue.arr (([] : List String).map JSValue.str)) ++ rest
          = '[' :: ']' :: rest from by rw [stringifyVal_arr]; rfl]
      rw [show f + 2 = (f + 1) + 1 from rfl, parseVal.eq_def]
      simp [skipWs, isJsonWs]
  | s :: tl, f, rest, hf => by
    match f, hf with
    | f + 2, hf =>
      have hhead : ∃ t, joinComma (stringifyElems ((s :: tl).map JSValue.str)) = '"' :: t := by
        rw [List.map_cons, stringifyElems, stringifyVal_str]
        cases h : stringifyElems (tl.map JSValue.str) with
        | nil =>
          refine ⟨escChars s.data ++ ['"'], ?_⟩
          rw [show joinComma [quoteStr s] = quoteStr s from rfl, quoteStr]
        | cons p ps =>
          refine ⟨escChars s.data ++ ['"'] ++ ',' :: joinComma (p :: ps), ?_⟩
          rw [joinComma, quoteStr]
          · simp
          · simp
      obtain ⟨t, ht⟩ := hhead
      have happ : stringifyVal (JSValue.arr ((s :: tl).map JSValue.str)) ++ rest
          = '[' :: (('"' :: t) ++ ']' :: rest) := by
        rw [stringifyVal_arr, ht]
        simp
      rw [happ, show f + 2 = (f + 1) + 1 from rfl, parseVal.eq_def]
      simp only [List.cons_append]
      simp [skipWs, isJsonWs]
      rw [show ('"' :: (t ++ ']' :: rest) : List Char)
          = joinComma (stringifyElems ((s :: tl).map JSValue.str)) ++ ']' :: rest from by
        rw [ht]
        simp]
      rw [parseElems_strList (s :: tl) (f + 1) rest (by simp) (by
        simp only [List.length_cons] at hf ⊢
        omega)]
      simp

/-- Parsing one rendered member whose value is a string array, with more
members following after the comma. -/
theorem parseMembers_cons_strArr (k : String) (l : List String) (g : Nat) (tail : List Char)
    (ms : List (String × JSValue)) (rest : List Char)
    (hl : l.length + 1 < g) (hnext : parseMembers g tail = some (ms, rest)) :
    parseMembers (g + 1)
      (quoteStr k ++ ':' :: (stringifyVal (JSValue.arr (l.map JSValue.str)) ++ ',' :: tail))
      = some ((k, JSValue.arr (l.map JSValue.str)) :: ms, rest) := by
  rw [show quoteStr k ++ ':' :: (stringifyVal (JSValue.arr (l.map JSValue.str)) ++ ',' :: tail)
      = '"' :: (escChars k.data
          ++ '"' :: (':' :: (stringifyVal (JSValue.arr (l.map JSValue.str)) ++ ',' :: tail)))
      from by rw [quoteStr]; simp]
  rw [parseMembers.eq_def]
  simp only [skipWs, isJsonWs]
  simp [parseStrBody_escChars]
  rw [skipWs_cons (by decide)]
  simp only [reduceIte]
  rw [parseVal_arrStr l g _ hl]
  simp [skipWs, isJsonWs, hnext]

/-- Parsing the last rendered member whose value is a string array,
consuming the closing brace. -/
theorem parseMembers_last_strArr (k : String) (l : List String) (g : Nat) (rest : List Char)
    (hl : l.length + 1 < g) :
    parseMembers (g + 1)
      (quoteStr k ++ ':' :: (stringifyVal (JSValue.arr (l.map JSValue.str)) ++ '}' :: rest))
      = some ([(k, JSValue.arr (l.map JSValue.str))], rest) := by
  rw [show quoteStr k ++ ':' :: (stringifyVal (JSValue.arr (l.map JSValue.str)) ++ '}' :: rest)
      = '"' :: (escChars k.data
          ++ '"' :: (':' :: (stringifyVal (JSValue.arr (l.map JSValue.str)) ++ '}' :: rest)))
      from by rw [quoteStr]; simp]
  rw [parseMembers.eq_def]
  simp only [skipWs, isJsonWs]
  simp [parseStrBody_escChars]
  rw [skipWs_cons (by decide)]
  simp only [reduceIte]
  rw [parseVal_arrStr l g _ hl]
  simp [skipWs, isJsonWs]

/-- Parsing a rendered content object recovers it, given fuel beyond the
number of references it holds. -/
theorem parseVal_contentJS (c : ContentStruct) : ∀ (f : Nat) (rest : List Char),
    c.bullets.length + c.images.length + c.videos.length + 6 ≤ f →
    parseVal f (stringifyVal c.toJS ++ rest) = some (c.toJS, rest) := by
  intro f rest hf
  match f, hf with
  | f + 6, hf =>
    have h3 : parseMembers (f + 3)
        (quoteStr "videos"
          ++ ':' :: (stringifyVal (JSValue.arr (c.videos.map JSValue.str)) ++ '}' :: rest))
        = some ([("videos", JSValue.arr (c.videos.map JSValue.str))], rest) :=
      parseMembers_last_strArr "videos" c.videos (f + 2) rest (by omega)
    have h2 : parseMembers (f + 4)
        (quoteStr "images"
          ++ ':' :: (stringifyVal (JSValue.arr (c.images.map JSValue.str))
            ++ ',' :: (quoteStr "videos"
              ++ ':' :: (stringifyVal (JSValue.arr (c.videos.map JSValue.str))
                ++ '}' :: rest))))
        = some ([("images", JSValue.arr (c.images.map JSValue.str)),
                 ("videos", JSValue.arr (c.videos.map JSValue.str))], rest) :=
      parseMembers_cons_strArr "images" c.images (f + 3) _ _ rest (by omega) h3
    have h1 : parseMembers (f + 5)
        (quoteStr "bullets"
          ++ ':' :: (stringifyVal (JSValue.arr (c.bullets.map JSValue.str))
            ++ ',' :: (quoteStr "images"
              ++ ':' :: (stringifyVal (JSValue.arr (c.images.map JSValue.str))
                ++ ',' :: (quoteStr "videos"
                  ++ ':' :: (stringifyVal (JSValue.arr (c.videos.map JSValue.str))
                    ++ '}' :: rest))))))
        = some ([("bullets", JSValue.arr (c.bullets.map JSValue.str)),
                 ("images", JSValue.arr (c.images.map JSValue.str)),
                 ("videos", JSValue.arr (c.videos.map JSValue.str))], rest) :=
      parseMembers_cons_strArr "bullets" c.bullets (f + 4) _ _ rest (by omega) h2
    have harg : stringifyVal c.toJS ++ rest
        = '{' :: (quoteStr "bullets"
            ++ ':' :: (stringifyVal (JSValue.arr (c.bullets.map JSValue.str))
              ++ ',' :: (quoteStr "images"
                ++ ':' :: (stringifyVal (JSValue.arr (c.images.map JSValue.str))
                  ++ ',' :: (quoteStr "videos"
                    ++ ':' :: (stringifyVal (JSValue.arr (c.videos.map JSValue.str))
                      ++ '}' :: rest)))))) := by
      rw [ContentStruct.toJS, stringifyVal_obj]
      simp [stringifyFields, JSValue.isUndef, joinComma]
    have hquote : quoteStr "bullets"
        ++ ':' :: (stringifyVal (JSValue.arr (c.bullets.map JSValue.str))
          ++ ',' :: (quoteStr "images"
            ++ ':' :: (stringifyVal (JSValue.arr (c.images.map JSValue.str))
              ++ ',' :: (quoteStr "videos"
                ++ ':' :: (stringifyVal (JSValue.arr (c.videos.map JSValue.str))
                  ++ '}' :: rest)))))
        = '"' :: (escChars "bullets".data
            ++ '"' :: (':' :: (stringifyVal (JSValue.arr (c.bullets.map JSValue.str))
              ++ ',' :: (quoteStr "images"
                ++ ':' :: (stringifyVal (JSValue.arr (c.images.map JSValue.str))
                  ++ ',' :: (quoteStr "videos"
                    ++ ':' :: (stringifyVal (JSValue.arr (c.videos.map JSValue.str))
                      ++ '}' :: rest))))))) := by
      rw [quoteStr]
      simp
    rw [harg, show f + 6 = (f + 5) + 1 from rfl, parseVal.eq_def]
    rw [hquote]
    simp [skipWs, isJsonWs]
    rw [← hquote, h1]
    simp [ContentStruct.toJS]

theorem two_le_length_quoteStr (s : String) : 2 ≤ (quoteStr s).length := by
  rw [quoteStr]
  simp

theorem length_joinComma_strList : ∀ l : List String,
    l.length ≤ (joinComma (stringifyElems (l.map JSValue.str))).length + 1
  | [] => by simp
  | [s] => by
    rw [List.map_cons, List.map_nil, stringifyElems, stringifyElems,
      show joinComma [stringifyVal (JSValue.str s)] = stringifyVal (JSValue.str s) from rfl]
    simp
  | s :: s2 :: tl => by
    have ih := length_joinComma_strList (s2 :: tl)
    have hq := two_le_length_quoteStr s
    rw [List.map_cons, stringifyElems, stringifyVal_str,
      show joinComma (quoteStr s :: stringifyElems ((s2 :: tl).map JSValue.str))
        = quoteStr s ++ ',' :: joinComma (stringifyElems ((s2 :: tl).map JSValue.str)) from by
          rw [List.map_cons, stringifyElems, joinComma]
          simp]
    simp only [List.length_append, List.length_cons] at ih ⊢
    omega

theorem length_arrStr (l : List String) :
    l.length + 1 ≤ (stringifyVal (JSValue.arr (l.map JSValue.str))).length := by
  have h := length_joinComma_strList l
  rw [stringifyVal_arr]
  simp only [List.length_cons, List.length_append]
  simp
  omega

/-- The rendered content object is longer than the fuel its parse needs. -/
theorem length_contentJS (c : ContentStruct) :
    c.bullets.length + c.images.length + c.videos.length + 5
      ≤ (stringifyVal c.toJS).length := by
  have hb := length_arrStr c.bullets
  have hi := length_arrStr c.images
  have hv := length_arrStr c.videos
  rw [ContentStruct.toJS, stringifyVal_obj]
  rw [show stringifyFields
        [("bullets", JSValue.arr (c.bullets.map JSValue.str)),
         ("images", JSValue.arr (c.images.map JSValue.str)),
         ("videos", JSValue.arr (c.videos.map JSValue.str))]
      = [quoteStr "bullets" ++ ':' :: stringifyVal (JSValue.arr (c.bullets.map JSValue.str)),
         quoteStr "images" ++ ':' :: stringifyVal (JSValue.arr (c.images.map JSValue.str)),
         quoteStr "videos" ++ ':' :: stringifyVal (JSValue.arr (c.videos.map JSValue.str))]
      from by simp [stringifyFields, JSValue.isUndef]]
  rw [show ∀ p q r : List Char, joinComma [p, q, r] = p ++ ',' :: (q ++ ',' :: r)
      from by intro p q r; rfl]
  simp only [List.length_cons, List.length_append]
  omega

/-- Parsing inverts stringification on every content structure. -/
theorem jsonParse_stringify_content (c : ContentStruct) :
    jsonParse ⟨stringifyVal c.toJS⟩ = some c.toJS := by
  rw [jsonParse]
  rw [show (String.mk (stringifyVal c.toJS)).length = (stringifyVal c.toJS).length from rfl]
  rw [show (String.mk (stringifyVal c.toJS)).data = stringifyVal c.toJS from rfl]
  have hp := parseVal_contentJS c ((stringifyVal c.toJS).length + 1) []
    (by have := length_contentJS c; omega)
  rw [List.append_nil] at hp
  rw [hp]
  simp [skipWs]

/-! ## Claims -/

/-- C8: with the connection not established (`db` still `none`), every
store operation other than initialize fails with the not-initialized error
and leaves the store state unchanged (`none`). -/
theorem C8_not_initialized (now : Nat) (r : StoreRecord) (i : String) :
    createJournal none now r = (Except.error StoreError.notInitialized, none) ∧
    getAllJournals none = Except.error StoreError.notInitialized ∧
    getJournalById none i = Except.error StoreError.notInitialized ∧
    updateJournal none now r = (Except.error StoreError.notInitialized, none) ∧
    deleteJournal none i = (Except.error StoreError.notInitialized, none) ∧
    autoSaveJournal none now r = (Except.error StoreError.notInitialized, none) :=
  ⟨rfl, rfl, rfl, rfl, rfl, rfl⟩

/-- C5: on an initialized store, an id matching no row makes
`getJournalById` return an empty result and `updateJournal` /
`deleteJournal` succeed with zero rows affected and the state unchanged;
none of the three signals an error. -/
theorem C5_absent_id_no_error (st : List Row) (i : String) (now : Nat) (r : StoreRecord)
    (habs : ∀ row ∈ st, row.id ≠ i) (hrid : r.id = i) (hbind : bindErr? r = none) :
    getJournalById (some st) i = Except.ok none ∧
    updateJournal (some st) now r = (Except.ok ⟨0⟩, some st) ∧
    deleteJournal (some st) i = (Except.ok ⟨0⟩, some st) := by
  have hfind : st.find? (fun row => row.id == i) = none := by
    rw [List.find?_eq_none]
    intro row hrow
    simp [habs row hrow]
  have hcount : st.countP (fun row => row.id == i) = 0 := by
    rw [List.countP_eq_zero]
    intro row hrow
    simp [habs row hrow]
  have hfilter : st.filter (fun row => !(row.id == i)) = st := by
    rw [List.filter_eq_self]
    intro row hrow
    simp [habs row hrow]
  refine ⟨?_, ?_, ?_⟩
  · rw [getJournalById, hfind]
  · rw [updateJournal, hbind, hrid]
    simp [hcount]
  · rw [deleteJournal, hfilter, hcount]

theorem C5_witness :
    getJournalById (some []) "missing" = Except.ok none ∧
    updateJournal (some []) 3 ⟨"missing", SqlParam.text "x", SqlParam.null⟩
      = (Except.ok ⟨0⟩, some []) ∧
    deleteJournal (some []) "missing" = (Except.ok ⟨0⟩, some []) :=
  C5_absent_id_no_error [] "missing" 3 ⟨"missing", SqlParam.text "x", SqlParam.null⟩
    (by simp) rfl rfl

/-- C6: two successive auto-saves of the same record leave exactly one row
with that id, whose `updated_at` is the time of the second call. -/
theorem C6_autosave_idempotent (st : List Row) (now1 now2 : Nat) (r : StoreRecord)
    (t : String) (ht : r.title = SqlParam.text t) (hbind : bindErr? r = none) :
    ∃ st2, (autoSaveJournal (autoSaveJournal (some st) now1 r).2 now2 r).2 = some st2 ∧
      st2.countP (fun row => row.id == r.id) = 1 ∧
      ∀ row ∈ st2, row.id = r.id → row.updated_at = now2 := by
  have h1 : (autoSaveJournal (some st) now1 r).2
      = some (st.filter (fun row => !(row.id == r.id))
          ++ [⟨r.id, t, storedText r.content, now1, now1, false⟩]) := by
    rw [autoSaveJournal, hbind, ht]
  rw [h1, autoSaveJournal, hbind, ht]
  refine ⟨_, rfl, ?_, ?_⟩
  · have hleft : ∀ xs : List Row,
        ((xs.filter (fun row => !(row.id == r.id))).filter
          (fun row => !(row.id == r.id))).countP (fun row => row.id == r.id) = 0 := by
      intro xs
      rw [List.countP_eq_zero]
      intro row hrow
      have := List.of_mem_filter hrow
      simp at this
      simp [this]
    have hsing : List.filter (fun row => !(row.id == r.id))
        [(⟨r.id, t, storedText r.content, now1, now1, false⟩ : Row)] = [] := by
      simp
    rw [List.countP_append, List.filter_append, hsing, List.append_nil, hleft st]
    simp
  · intro row hrow hid
    rw [List.mem_append] at hrow
    rcases hrow with hrow | hrow
    · rcases List.mem_filter.mp hrow with ⟨hmem2, hp⟩
      simp [hid] at hp
    · simp at hrow
      subst hrow
      rfl

theorem C6_witness :
    ∃ st2, (autoSaveJournal
        (autoSaveJournal (some []) 1 ⟨"a", SqlParam.text "t", SqlParam.null⟩).2 2
        ⟨"a", SqlParam.text "t", SqlParam.null⟩).2 = some st2 ∧
      st2.countP (fun row => row.id == "a") = 1 ∧
      ∀ row ∈ st2, row.id = "a" → row.updated_at = 2 :=
  C6_autosave_idempotent [] 1 2 ⟨"a", SqlParam.text "t", SqlParam.null⟩ "t" rfl rfl

/-- C7: `getAllJournals` on an initialized store succeeds with a
permutation of the rows sorted by `updated_at` descending, the empty list
when the store is empty. -/
theorem C7_getAll_sorted (st : List Row) :
    ∃ l, getAllJournals (some st) = Except.ok l ∧
      l.Perm st ∧
      l.Pairwise (fun a b => b.updated_at ≤ a.updated_at) ∧
      (st = [] → l = []) := by
  refine ⟨_, rfl, List.mergeSort_perm st _, ?_, ?_⟩
  · have hs := @List.sorted_mergeSort Row
      (fun a b : Row => decide (b.updated_at ≤ a.updated_at))
      (fun a b c hab hbc => by
        simp at hab hbc ⊢
        omega)
      (fun a b => by
        simp
        omega)
      st
    exact hs.imp (fun h => by simpa using h)
  · intro h
    subst h
    simp

theorem C7_witness :
    ∃ l, getAllJournals (some [⟨"a", "t", none, 0, 0, false⟩, ⟨"b", "u", none, 1, 5, false⟩])
        = Except.ok l ∧
      l.Perm [⟨"a", "t", none, 0, 0, false⟩, ⟨"b", "u", none, 1, 5, false⟩] ∧
      l.Pairwise (fun a b => b.updated_at ≤ a.updated_at) ∧
      ([⟨"a", "t", none, 0, 0, false⟩, ⟨"b", "u", none, 1, 5, false⟩] = ([] : List Row) → l = []) :=
  C7_getAll_sorted [⟨"a", "t", none, 0, 0, false⟩, ⟨"b", "u", none, 1, 5, false⟩]

/-- C1 counterexample: a row created at time 0 has `created_at = 0`, and a
later auto-save of the same record at time 1 leaves the row with
`created_at = 1` — the `INSERT OR REPLACE` re-defaults the column, so an
operation other than an insert does change a row created-at. -/
theorem C1_counterexample :
    (createJournal (some []) 0 ⟨"a", SqlParam.text "t", SqlParam.null⟩).2
      = some [⟨"a", "t", none, 0, 0, false⟩] ∧
    (autoSaveJournal (some [⟨"a", "t", none, 0, 0, false⟩]) 1
        ⟨"a", SqlParam.text "t", SqlParam.null⟩).2
      = some [⟨"a", "t", none, 1, 1, false⟩] ∧
    (0 : Nat) ≠ 1 :=
  ⟨rfl, rfl, by decide⟩

/-- C1 amended: `created_at` is set to the insertion time by
`createJournal`; `updateJournal` and `deleteJournal` leave the
`created_at` of every surviving row unchanged; `autoSaveJournal`, which
replaces the whole row, instead resets `created_at` of the saved id to the
time of the auto-save call. -/
theorem C1_created_at :
    (∀ (st : List Row) (now : Nat) (r : StoreRecord) (st' : List Row),
      (createJournal (some st) now r).2 = some st' →
      ∀ row' ∈ st', row' ∉ st → row'.created_at = now) ∧
    (∀ (st : List Row) (now : Nat) (r : StoreRecord) (st' : List Row),
      (updateJournal (some st) now r).2 = some st' →
      ∀ row' ∈ st', ∃ row ∈ st, row'.id = row.id ∧ row'.created_at = row.created_at) ∧
    (∀ (st : List Row) (i : String) (st' : List Row),
      (deleteJournal (some st) i).2 = some st' →
      ∀ row' ∈ st', row' ∈ st) ∧
    (∀ (st : List Row) (now : Nat) (r : StoreRecord) (res : RunResult) (st' : List Row),
      autoSaveJournal (some st) now r = (Except.ok res, some st') →
      ∀ row' ∈ st', row'.id = r.id → row'.created_at = now) := by
  refine ⟨?_, ?_, ?_, ?_⟩
  · intro st now r st' hst' row' hrow' hnotin
    rw [createJournal] at hst'
    rcases hb : bindErr? r with _ | e
    · rw [hb] at hst'
      by_cases hany : st.any (fun row => row.id == r.id)
      · rw [if_pos hany] at hst'
        cases hst'
        exact absurd hrow' hnotin
      · rw [if_neg hany] at hst'
        rcases htt : r.title with _ | _ | _ | tt <;> rw [htt] at hst' <;> cases hst'
        · exact absurd hrow' hnotin
        · exact absurd hrow' hnotin
        · exact absurd hrow' hnotin
        · rcases List.mem_append.mp hrow' with hmem | hmem
          · exact absurd hmem hnotin
          · simp at hmem
            subst hmem
            rfl
    · rw [hb] at hst'
      cases hst'
      exact absurd hrow' hnotin
  · intro st now r st' hst' row' hrow'
    rw [updateJournal] at hst'
    rcases hb : bindErr? r with _ | e
    · rw [hb] at hst'
      by_cases hz : st.countP (fun row => row.id == r.id) = 0
      · rw [if_pos hz] at hst'
        cases hst'
        exact ⟨row', hrow', rfl, rfl⟩
      · rw [if_neg hz] at hst'
        rcases htt : r.title with _ | _ | _ | tt <;> rw [htt] at hst' <;> cases hst'
        · exact ⟨row', hrow', rfl, rfl⟩
        · exact ⟨row', hrow', rfl, rfl⟩
        · exact ⟨row', hrow', rfl, rfl⟩
        · rcases List.mem_map.mp hrow' with ⟨row, hrow, hmap⟩
          refine ⟨row, hrow, ?_⟩
          by_cases hidm : row.id == r.id
          · rw [if_pos hidm] at hmap
            subst hmap
            exact ⟨rfl, rfl⟩
          · rw [if_neg hidm] at hmap
            subst hmap
            exact ⟨rfl, rfl⟩
    · rw [hb] at hst'
      cases hst'
      exact ⟨row', hrow', rfl, rfl⟩
  · intro st i st' hst' row' hrow'
    rw [deleteJournal] at hst'
    cases hst'
    exact List.mem_of_mem_filter hrow'
  · intro st now r res st' hauto row' hrow' hid
    rw [autoSaveJournal] at hauto
    rcases hb : bindErr? r with _ | e
    · rw [hb] at hauto
      rcases htt : r.title with _ | _ | _ | tt <;> rw [htt] at hauto <;> cases hauto
      rcases List.mem_append.mp hrow' with hmem | hmem
      · rcases List.mem_filter.mp hmem with ⟨_, hp⟩
        simp [hid] at hp
      · simp at hmem
        subst hmem
        rfl
    · rw [hb] at hauto
      cases hauto

theorem C1_created_at_witness : (⟨"b", "t", none, 9, 9, false⟩ : Row).created_at = 9 :=
  C1_created_at.2.2.2 [] 9 ⟨"b", SqlParam.text "t", SqlParam.null⟩ ⟨1⟩
    [⟨"b", "t", none, 9, 9, false⟩] rfl ⟨"b", "t", none, 9, 9, false⟩ (by simp) rfl

/-- C2: auto-save is an upsert: it always succeeds on bindable input,
rewrites title, content and updated-at for the saved id, appends a fresh
row when the id was absent, and differs from `updateJournal`, which
affects zero rows and creates nothing for an absent id. -/
theorem C2_autosave_upsert (st : List Row) (now : Nat) (r : StoreRecord) (t : String)
    (ht : r.title = SqlParam.text t) (hbind : bindErr? r = none) :
    ∃ st', autoSaveJournal (some st) now r = (Except.ok ⟨1⟩, some st') ∧
      st'.countP (fun row => row.id == r.id) = 1 ∧
      ((∃ row ∈ st, row.id = r.id) →
        ∃ row' ∈ st', row'.id = r.id ∧ row'.title = t
          ∧ row'.content = storedText r.content ∧ row'.updated_at = now) ∧
      ((∀ row ∈ st, row.id ≠ r.id) →
        st' = st ++ [⟨r.id, t, storedText r.content, now, now, false⟩]) ∧
      ((∀ row ∈ st, row.id ≠ r.id) →
        updateJournal (some st) now r = (Except.ok ⟨0⟩, some st)) := by
  refine ⟨_, by rw [autoSaveJournal, hbind, ht], ?_, ?_, ?_, ?_⟩
  · rw [List.countP_append]
    rw [show (st.filter (fun row => !(row.id == r.id))).countP
        (fun row => row.id == r.id) = 0 from by
      rw [List.countP_eq_zero]
      intro row hrow
      have := List.of_mem_filter hrow
      simp at this
      simp [this]]
    simp
  · intro _
    refine ⟨⟨r.id, t, storedText r.content, now, now, false⟩, ?_, rfl, rfl, rfl, rfl⟩
    exact List.mem_append_right _ (by simp)
  · intro habs
    have : st.filter (fun row => !(row.id == r.id)) = st := by
      rw [List.filter_eq_self]
      intro row hrow
      simp [habs row hrow]
    rw [this]
  · intro habs
    have hcount : st.countP (fun row => row.id == r.id) = 0 := by
      rw [List.countP_eq_zero]
      intro row hrow
      simp [habs row hrow]
    rw [updateJournal, hbind]
    simp [hcount]

theorem C2_witness :
    ∃ st', autoSaveJournal (some []) 4 ⟨"n", SqlParam.text "t", SqlParam.null⟩
        = (Except.ok ⟨1⟩, some st') ∧
      st'.countP (fun row => row.id == "n") = 1 ∧
      ((∃ row ∈ ([] : List Row), row.id = "n") →
        ∃ row' ∈ st', row'.id = "n" ∧ row'.title = "t"
          ∧ row'.content = storedText SqlParam.null ∧ row'.updated_at = 4) ∧
      ((∀ row ∈ ([] : List Row), row.id ≠ "n") →
        st' = [] ++ [⟨"n", "t", storedText SqlParam.null, 4, 4, false⟩]) ∧
      ((∀ row ∈ ([] : List Row), row.id ≠ "n") →
        updateJournal (some []) 4 ⟨"n", SqlParam.text "t", SqlParam.null⟩
          = (Except.ok ⟨0⟩, some [])) :=
  C2_autosave_upsert [] 4 ⟨"n", SqlParam.text "t", SqlParam.null⟩ "t" rfl rfl

/-! Helper facts about where rows of a result state come from, used by the
`is_published` frame claim. -/

theorem create_rows (st : List Row) (now : Nat) (r : StoreRecord) (st' : List Row)
    (hst' : (createJournal (some st) now r).2 = some st') :
    ∀ row' ∈ st', row' ∈ st ∨ row'.is_published = false := by
  intro row' hrow'
  rw [createJournal] at hst'
  rcases hb : bindErr? r with _ | e
  · rw [hb] at hst'
    by_cases hany : st.any (fun row => row.id == r.id)
    · rw [if_pos hany] at hst'
      cases hst'
      exact Or.inl hrow'
    · rw [if_neg hany] at hst'
      rcases htt : r.title with _ | _ | _ | tt <;> rw [htt] at hst' <;> cases hst'
      · exact Or.inl hrow'
      · exact Or.inl hrow'
      · exact Or.inl hrow'
      · rcases List.mem_append.mp hrow' with hmem | hmem
        · exact Or.inl hmem
        · simp at hmem
          subst hmem
          exact Or.inr rfl
  · rw [hb] at hst'
    cases hst'
    exact Or.inl hrow'

theorem update_rows (st : List Row) (now : Nat) (r : StoreRecord) (st' : List Row)
    (hst' : (updateJournal (some st) now r).2 = some st') :
    ∀ row' ∈ st', ∃ row ∈ st, row'.is_published = row.is_published := by
  intro row' hrow'
  rw [updateJournal] at hst'
  rcases hb : bindErr? r with _ | e
  · rw [hb] at hst'
    by_cases hz : st.countP (fun row => row.id == r.id) = 0
    · rw [if_pos hz] at hst'
      cases hst'
      exact ⟨row', hrow', rfl⟩
    · rw [if_neg hz] at hst'
      rcases htt : r.title with _ | _ | _ | tt <;> rw [htt] at hst' <;> cases hst'
      · exact ⟨row', hrow', rfl⟩
      · exact ⟨row', hrow', rfl⟩
      · exact ⟨row', hrow', rfl⟩
      · rcases List.mem_map.mp hrow' with ⟨row, hrow, hmap⟩
        refine ⟨row, hrow, ?_⟩
        by_cases hidm : row.id == r.id
        · rw [if_pos hidm] at hmap
          subst hmap
          rfl
        · rw [if_neg hidm] at hmap
          subst hmap
          rfl
  · rw [hb] at hst'
    cases hst'
    exact ⟨row', hrow', rfl⟩

theorem delete_rows (st : List Row) (i : String) (st' : List Row)
    (hst' : (deleteJournal (some st) i).2 = some st') :
    ∀ row' ∈ st', row' ∈ st := by
  intro row' hrow'
  rw [deleteJournal] at hst'
  cases hst'
  exact List.mem_of_mem_filter hrow'

theorem autosave_rows (st : List Row) (now : Nat) (r : StoreRecord) (st' : List Row)
    (hst' : (autoSaveJournal (some st) now r).2 = some st') :
    ∀ row' ∈ st', row' ∈ st ∨ row'.is_published = false := by
  intro row' hrow'
  rw [autoSaveJournal] at hst'
  rcases hb : bindErr? r with _ | e
  · rw [hb] at hst'
    rcases htt : r.title with _ | _ | _ | tt <;> rw [htt] at hst' <;> cases hst'
    · exact Or.inl hrow'
    · exact Or.inl hrow'
    · exact Or.inl hrow'
    · rcases List.mem_append.mp hrow' with hmem | hmem
      · exact Or.inl (List.mem_of_mem_filter hmem)
      · simp at hmem
        subst hmem
        exact Or.inr rfl
  · rw [hb] at hst'
    cases hst'
    exact Or.inl hrow'

theorem allUnpub_create (st : List Row) (now : Nat) (r : StoreRecord) (st' : List Row)
    (h : AllUnpublished st) (hst' : (createJournal (some st) now r).2 = some st') :
    AllUnpublished st' := by
  intro row' hrow'
  rcases create_rows st now r st' hst' row' hrow' with hmem | hfalse
  · exact h row' hmem
  · exact hfalse

theorem allUnpub_update (st : List Row) (now : Nat) (r : StoreRecord) (st' : List Row)
    (h : AllUnpublished st) (hst' : (updateJournal (some st) now r).2 = some st') :
    AllUnpublished st' := by
  intro row' hrow'
  rcases update_rows st now r st' hst' row' hrow' with ⟨row, hrow, heq⟩
  rw [heq]
  exact h row hrow

theorem allUnpub_delete (st : List Row) (i : String) (st' : List Row)
    (h : AllUnpublished st) (hst' : (deleteJournal (some st) i).2 = some st') :
    AllUnpublished st' := by
  intro row' hrow'
  exact h row' (delete_rows st i st' hst' row' hrow')

theorem allUnpub_autosave (st : List Row) (now : Nat) (r : StoreRecord) (st' : List Row)
    (h : AllUnpublished st) (hst' : (autoSaveJournal (some st) now r).2 = some st') :
    AllUnpublished st' := by
  intro row' hrow'
  rcases autosave_rows st now r st' hst' row' hrow' with hmem | hfalse
  · exact h row' hmem
  · exact hfalse

/-- C3: `is_published` defaults to false on every inserted row, the
all-unpublished invariant holds from initialization and is preserved by
every store operation and every mutating gateway handler, and under it no
operation changes the `is_published` value of any row present before and
after. -/
theorem C3_is_published_frame :
    ((initDatabase none).2 = some [] ∧ AllUnpublished []) ∧
    (∀ (st : List Row) (now : Nat) (r : StoreRecord) (st' : List Row),
      (createJournal (some st) now r).2 = some st' →
      ∀ row' ∈ st', row' ∉ st → row'.is_published = false) ∧
    (∀ (st : List Row) (now : Nat) (r : StoreRecord) (st' : List Row),
      (autoSaveJournal (some st) now r).2 = some st' →
      ∀ row' ∈ st', row' ∉ st → row'.is_published = false) ∧
    (∀ (st : List Row) (now : Nat) (r : StoreRecord) (st' : List Row),
      AllUnpublished st → (createJournal (some st) now r).2 = some st' →
      AllUnpublished st' ∧
        ∀ row ∈ st, ∀ row' ∈ st', row'.id = row.id →
          row'.is_published = row.is_published) ∧
    (∀ (st : List Row) (now : Nat) (r : StoreRecord) (st' : List Row),
      AllUnpublished st → (updateJournal (some st) now r).2 = some st' →
      AllUnpublished st' ∧
        ∀ row ∈ st, ∀ row' ∈ st', row'.id = row.id →
          row'.is_published = row.is_published) ∧
    (∀ (st : List Row) (i : String) (st' : List Row),
      AllUnpublished st → (deleteJournal (some st) i).2 = some st' →
      AllUnpublished st' ∧
        ∀ row ∈ st, ∀ row' ∈ st', row'.id = row.id →
          row'.is_published = row.is_published) ∧
    (∀ (st : List Row) (now : Nat) (r : StoreRecord) (st' : List Row),
      AllUnpublished st → (autoSaveJournal (some st) now r).2 = some st' →
      AllUnpublished st' ∧
        ∀ row ∈ st, ∀ row' ∈ st', row'.id = row.id →
          row'.is_published = row.is_published) ∧
    (∀ (st : List Row) (now : Nat) (fresh : String) (inp : Option JournalInput)
        (st' : List Row),
      AllUnpublished st → (handleCreateJournal (some st) now fresh inp).2 = some st' →
      AllUnpublished st') ∧
    (∀ (st : List Row) (now : Nat) (inp : Option JournalInput) (st' : List Row),
      AllUnpublished st → (handleUpdateJournal (some st) now inp).2 = some st' →
      AllUnpublished st') ∧
    (∀ (st : List Row) (i : Option String) (st' : List Row),
      AllUnpublished st → (handleDeleteJournal (some st) i).2 = some st' →
      AllUnpublished st') ∧
    (∀ (st : List Row) (now : Nat) (inp : Option JournalInput) (st' : List Row),
      AllUnpublished st → (handleAutoSaveJournal (some st) now inp).2 = some st' →
      AllUnpublished st') := by
  refine ⟨⟨rfl, by intro row hrow; cases hrow⟩, ?_, ?_, ?_, ?_, ?_, ?_, ?_, ?_, ?_, ?_⟩
  · intro st now r st' hst' row' hrow' hnotin
    rcases create_rows st now r st' hst' row' hrow' with hmem | hfalse
    · exact absurd hmem hnotin
    · exact hfalse
  · intro st now r st' hst' row' hrow' hnotin
    rcases autosave_rows st now r st' hst' row' hrow' with hmem | hfalse
    · exact absurd hmem hnotin
    · exact hfalse
  · intro st now r st' h hst'
    have h' := allUnpub_create st now r st' h hst'
    exact ⟨h', fun row hrow row' hrow' _ => by rw [h' row' hrow', h row hrow]⟩
  · intro st now r st' h hst'
    have h' := allUnpub_update st now r st' h hst'
    exact ⟨h', fun row hrow row' hrow' _ => by rw [h' row' hrow', h row hrow]⟩
  · intro st i st' h hst'
    have h' := allUnpub_delete st i st' h hst'
    exact ⟨h', fun row hrow row' hrow' _ => by rw [h' row' hrow', h row hrow]⟩
  · intro st now r st' h hst'
    have h' := allUnpub_autosave st now r st' h hst'
    exact ⟨h', fun row hrow row' hrow' _ => by rw [h' row' hrow', h row hrow]⟩
  · intro st now fresh inp st' h hst'
    rcases inp with _ | j
    · rw [handleCreateJournal] at hst'
      cases hst'
      exact h
    · rw [handleCreateJournal] at hst'
      by_cases hf : falsyOptStr j.title
      · rw [if_pos hf] at hst'
        cases hst'
        exact h
      · rw [if_neg hf] at hst'
        exact allUnpub_create st now _ st' h hst'
  · intro st now inp st' h hst'
    rcases inp with _ | j
    · rw [handleUpdateJournal] at hst'
      cases hst'
      exact h
    · rw [handleUpdateJournal] at hst'
      by_cases hf : falsyOptStr j.id
      · rw [if_pos hf] at hst'
        cases hst'
        exact h
      · rw [if_neg hf] at hst'
        exact allUnpub_update st now _ st' h hst'
  · intro st i st' h hst'
    rcases i with _ | i
    · rw [handleDeleteJournal] at hst'
      cases hst'
      exact h
    · rw [handleDeleteJournal] at hst'
      by_cases hf : i = ""
      · rw [if_pos hf] at hst'
        cases hst'
        exact h
      · rw [if_neg hf] at hst'
        exact allUnpub_delete st i st' h hst'
  · intro st now inp st' h hst'
    rcases inp with _ | j
    · rw [handleAutoSaveJournal] at hst'
      cases hst'
      exact h
    · rw [handleAutoSaveJournal] at hst'
      by_cases hf : falsyOptStr j.id
      · rw [if_pos hf] at hst'
        cases hst'
        exact h
      · rw [if_neg hf] at hst'
        exact allUnpub_autosave st now _ st' h hst'

theorem C3_witness : (⟨"a", "t", none, 2, 2, false⟩ : Row).is_published = false :=
  C3_is_published_frame.2.1 [] 2 ⟨"a", SqlParam.text "t", SqlParam.null⟩
    [⟨"a", "t", none, 2, 2, false⟩] rfl ⟨"a", "t", none, 2, 2, false⟩ (by simp) (by simp)

/-- C9: the create handler rejects a missing (or empty, hence falsy) title;
otherwise it forwards to the store a record whose id is the freshly minted
one — the caller-supplied id is irrelevant — with object content
serialized to text. -/
theorem C9_create_handler (db : Option (List Row)) (now : Nat) (fresh : String)
    (j : JournalInput) (t : String) :
    (handleCreateJournal db now fresh none = (Except.error GwError.invalidJournalData, db)) ∧
    (falsyOptStr j.title = true →
      handleCreateJournal db now fresh (some j) = (Except.error GwError.invalidJournalData, db)) ∧
    (j.title = some t → t ≠ "" →
      ∀ id1 id2 : Option String,
        handleCreateJournal db now fresh (some { j with id := id1 })
          = handleCreateJournal db now fresh (some { j with id := id2 })) ∧
    (j.title = some t → t ≠ "" →
      handleCreateJournal db now fresh (some j)
        = ((createJournal db now
              ⟨fresh, SqlParam.text t, jsToParam (serializeContent j.content)⟩).1.mapError
                GwError.store,
           (createJournal db now
              ⟨fresh, SqlParam.text t, jsToParam (serializeContent j.content)⟩).2)) ∧
    (∀ v : JSValue, v.isTruthyObject = true →
      jsToParam (serializeContent v) = SqlParam.text ⟨stringifyVal v⟩) := by
  refine ⟨rfl, ?_, ?_, ?_, ?_⟩
  · intro hf
    rw [handleCreateJournal, if_pos hf]
  · intro hts htne id1 id2
    have hf : falsyOptStr j.title = false := by
      rw [hts]
      simp [falsyOptStr, htne]
    simp [handleCreateJournal, hf]
  · intro hts htne
    have hf2 : falsyOptStr (some t) = false := by
      simp [falsyOptStr, htne]
    simp [handleCreateJournal, hts, hf2, titleParam]
  · intro v hv
    cases v <;> simp [JSValue.isTruthyObject] at hv <;>
      simp [serializeContent, JSValue.isTruthyObject, jsToParam]

theorem C9_witness :
    handleCreateJournal (some []) 7 "uuid-1" (some ⟨some "caller-id", some "T", JSValue.null⟩)
      = ((createJournal (some []) 7
            ⟨"uuid-1", SqlParam.text "T",
              jsToParam (serializeContent JSValue.null)⟩).1.mapError GwError.store,
         (createJournal (some []) 7
            ⟨"uuid-1", SqlParam.text "T",
              jsToParam (serializeContent JSValue.null)⟩).2) :=
  (C9_create_handler (some []) 7 "uuid-1" ⟨some "caller-id", some "T", JSValue.null⟩
    "T").2.2.2.1 rfl (by decide)

/-- C10: content stored as NULL or as the empty string is falsy in the
read handlers, so it is never parsed and never replaced by the empty
structure: the handlers return it exactly as stored. -/
theorem C10_null_empty_passthrough :
    (parseContentField none = JSValue.null) ∧
    (parseContentField (some "") = JSValue.str "") ∧
    (JSValue.null ≠ emptyContent) ∧
    (JSValue.str "" ≠ emptyContent) ∧
    (∀ (st : List Row) (i : String) (row : Row),
      st.find? (fun x => x.id == i) = some row → i ≠ "" →
      handleGetJournal (some st) (some i) = Except.ok (some (transformRow row))) ∧
    (∀ st : List Row, ∃ outs, handleGetAllJournals (some st) = Except.ok outs ∧
      ∀ row ∈ st, transformRow row ∈ outs) ∧
    (∀ row : Row, row.content = none → (transformRow row).content = JSValue.null) ∧
    (∀ row : Row, row.content = some "" → (transformRow row).content = JSValue.str "") := by
  refine ⟨rfl, rfl, by simp [emptyContent], by simp [emptyContent], ?_, ?_, ?_, ?_⟩
  · intro st i row hfind hne
    rw [handleGetJournal, if_neg hne, getJournalById, hfind]
  · intro st
    refine ⟨_, rfl, ?_⟩
    intro row hrow
    refine List.mem_map_of_mem transformRow ?_
    exact ((List.mergeSort_perm st _).mem_iff).mpr hrow
  · intro row h
    simp [transformRow, h, parseContentField]
  · intro row h
    simp [transformRow, h, parseContentField]

theorem C10_witness :
    handleGetJournal (some [⟨"a", "t", none, 0, 0, false⟩]) (some "a")
      = Except.ok (some (transformRow ⟨"a", "t", none, 0, 0, false⟩)) :=
  C10_null_empty_passthrough.2.2.2.2.1 [⟨"a", "t", none, 0, 0, false⟩] "a"
    ⟨"a", "t", none, 0, 0, false⟩ rfl (by decide)

/-! Helpers for the serialization round-trip claim. -/

/-- A content structure serialized by a write handler binds as the text of
its `JSON.stringify` rendering. -/
theorem serialize_content_param (c : ContentStruct) :
    jsToParam (serializeContent c.toJS) = SqlParam.text ⟨stringifyVal c.toJS⟩ := by
  rw [ContentStruct.toJS]
  simp [serializeContent, JSValue.isTruthyObject, jsToParam]

theorem stringify_content_ne_empty (c : ContentStruct) :
    (⟨stringifyVal c.toJS⟩ : String) ≠ "" := by
  rw [ContentStruct.toJS, stringifyVal_obj]
  simp [String.ext_iff]

/-- The read transform recovers a stored content structure exactly. -/
theorem parseContentField_content (c : ContentStruct) :
    parseContentField (some ⟨stringifyVal c.toJS⟩) = c.toJS := by
  rw [parseContentField, if_neg (stringify_content_ne_empty c), jsonParse_stringify_content]

theorem transformRow_content (row : Row) (c : ContentStruct)
    (h : row.content = some ⟨stringifyVal c.toJS⟩) :
    transformRow row
      = ⟨row.id, row.title, c.toJS, row.created_at, row.updated_at, row.is_published⟩ := by
  simp [transformRow, h, parseContentField_content]

/-- The read transform substitutes the empty structure for a stored
non-empty text that does not parse. -/
theorem transformRow_malformed (row : Row) (s : String)
    (h : row.content = some s) (hne : s ≠ "") (hp : jsonParse s = none) :
    transformRow row
      = ⟨row.id, row.title, emptyContent, row.created_at, row.updated_at,
          row.is_published⟩ := by
  simp [transformRow, h, parseContentField, hne, hp]

theorem getJournal_found (st : List Row) (i : String) (row : Row)
    (hfind : st.find? (fun x => x.id == i) = some row) (hne : i ≠ "") :
    handleGetJournal (some st) (some i) = Except.ok (some (transformRow row)) := by
  rw [handleGetJournal, if_neg hne, getJournalById, hfind]

/-- Creating with a fresh id inserts one row at the end. -/
theorem create_fresh (st : List Row) (now : Nat) (fresh t s : String)
    (habs : ∀ row ∈ st, row.id ≠ fresh) :
    createJournal (some st) now ⟨fresh, SqlParam.text t, SqlParam.text s⟩
      = (Except.ok ⟨1⟩, some (st ++ [⟨fresh, t, some s, now, now, false⟩])) := by
  have hany : st.any (fun row => row.id == fresh) = false := by
    rw [List.any_eq_false]
    intro row hrow
    simp [habs row hrow]
  rw [createJournal]
  simp [bindErr?, hany, storedText]

/-- Updating an id that is present rewrites every matching row. -/
theorem update_hit (st : List Row) (now : Nat) (i tt s : String)
    (hex : ∃ row ∈ st, row.id = i) :
    updateJournal (some st) now ⟨i, SqlParam.text tt, SqlParam.text s⟩
      = (Except.ok ⟨st.countP (fun row => row.id == i)⟩,
         some (st.map (fun row => if row.id == i then
           { row with title := tt, content := some s, updated_at := now } else row))) := by
  have hnz : st.countP (fun row => row.id == i) ≠ 0 := by
    rcases hex with ⟨row, hrow, hri⟩
    rw [Ne, List.countP_eq_zero]
    intro hall
    exact hall row hrow (by simp [hri])
  rw [updateJournal]
  simp [bindErr?, hnz, storedText]

/-- Lookup on the updated store returns the update of the first matching
row. -/
theorem find?_updated (i tt : String) (ct : Option String) (now : Nat) :
    ∀ st : List Row, (∃ row ∈ st, row.id = i) →
    ∃ row0 ∈ st, row0.id = i ∧
      (st.map (fun row => if row.id == i then
          { row with title := tt, content := ct, updated_at := now } else row)).find?
        (fun row => row.id == i)
        = some { row0 with title := tt, content := ct, updated_at := now }
  | [], h => by simp at h
  | row :: st, h => by
    by_cases hid : row.id = i
    · refine ⟨row, by simp, hid, ?_⟩
      rw [List.map_cons, if_pos (by simp [hid])]
      rw [List.find?_cons_of_pos _ (by simp [hid])]
    · have h' : ∃ r ∈ st, r.id = i := by
        rcases h with ⟨r, hr, hri⟩
        rcases List.mem_cons.mp hr with rfl | hr'
        · exact absurd hri hid
        · exact ⟨r, hr', hri⟩
      rcases find?_updated i tt ct now st h' with ⟨row0, hmem, hid0, hfind⟩
      refine ⟨row0, List.mem_cons_of_mem _ hmem, hid0, ?_⟩
      rw [List.map_cons, if_neg (by simp [hid])]
      rw [List.find?_cons_of_neg _ (by simp [hid]), hfind]

/-- C4 counterexample: an empty-string stored content is not valid
serialized form (`JSON.parse` rejects it), yet the read returns the empty
string itself, not the empty structure: the handlers only attempt parsing
on truthy (non-empty) strings. -/
theorem C4_counterexample :
    jsonParse "" = none ∧
    handleGetJournal (some [⟨"a", "t", some "", 0, 0, false⟩]) (some "a")
      = Except.ok (some ⟨"a", "t", JSValue.str "", 0, 0, false⟩) ∧
    JSValue.str "" ≠ emptyContent :=
  ⟨rfl, rfl, by simp [emptyContent]⟩

/-- C4 amended: a content structure written through create-journal or
update-journal and read back through get-journal or get-all-journals is
returned structurally equal to what was written; a stored non-empty text
that does not parse is replaced by the empty structure rather than
failing the read; a stored empty string is returned unchanged. -/
theorem C4_roundtrip :
    (∀ (st : List Row) (now : Nat) (fresh : String) (j : JournalInput)
        (c : ContentStruct) (t : String),
      j.title = some t → t ≠ "" → j.content = c.toJS → fresh ≠ "" →
      (∀ row ∈ st, row.id ≠ fresh) →
      ∃ st', handleCreateJournal (some st) now fresh (some j)
          = (Except.ok ⟨1⟩, some st') ∧
        handleGetJournal (some st') (some fresh)
          = Except.ok (some ⟨fresh, t, c.toJS, now, now, false⟩)) ∧
    (∀ (st : List Row) (now : Nat) (fresh : String) (j : JournalInput)
        (c : ContentStruct) (t : String),
      j.title = some t → t ≠ "" → j.content = c.toJS → fresh ≠ "" →
      (∀ row ∈ st, row.id ≠ fresh) →
      ∃ st', handleCreateJournal (some st) now fresh (some j)
          = (Except.ok ⟨1⟩, some st') ∧
        ∃ outs, handleGetAllJournals (some st') = Except.ok outs ∧
          (⟨fresh, t, c.toJS, now, now, false⟩ : RowOut) ∈ outs ∧
          ∀ out ∈ outs, out.id = fresh → out.content = c.toJS) ∧
    (∀ (st : List Row) (now : Nat) (j : JournalInput) (c : ContentStruct) (i tt : String),
      j.id = some i → i ≠ "" → j.title = some tt → j.content = c.toJS →
      (∃ row ∈ st, row.id = i) →
      ∃ res st', handleUpdateJournal (some st) now (some j)
          = (Except.ok res, some st') ∧
        ∃ out, handleGetJournal (some st') (some i) = Except.ok (some out) ∧
          out.id = i ∧ out.title = tt ∧ out.content = c.toJS ∧ out.updated_at = now) ∧
    (∀ (st : List Row) (now : Nat) (j : JournalInput) (c : ContentStruct) (i tt : String),
      j.id = some i → i ≠ "" → j.title = some tt → j.content = c.toJS →
      (∃ row ∈ st, row.id = i) →
      ∃ res st', handleUpdateJournal (some st) now (some j)
          = (Except.ok res, some st') ∧
        ∃ outs, handleGetAllJournals (some st') = Except.ok outs ∧
          ∀ out ∈ outs, out.id = i → out.content = c.toJS) ∧
    (∀ (st : List Row) (i : String) (row : Row) (s : String),
      st.find? (fun x => x.id == i) = some row → i ≠ "" →
      row.content = some s → s ≠ "" → jsonParse s = none →
      handleGetJournal (some st) (some i)
        = Except.ok (some ⟨row.id, row.title, emptyContent, row.created_at,
            row.updated_at, row.is_published⟩)) ∧
    (∀ st : List Row, ∀ row ∈ st, ∀ s : String,
      row.content = some s → s ≠ "" → jsonParse s = none →
      ∃ outs, handleGetAllJournals (some st) = Except.ok outs ∧
        (⟨row.id, row.title, emptyContent, row.created_at, row.updated_at,
            row.is_published⟩ : RowOut) ∈ outs) ∧
    (parseContentField (some "") = JSValue.str "") := by
  have hcreate : ∀ (st : List Row) (now : Nat) (fresh : String) (j : JournalInput)
      (c : ContentStruct) (t : String),
      j.title = some t → t ≠ "" → j.content = c.toJS →
      (∀ row ∈ st, row.id ≠ fresh) →
      handleCreateJournal (some st) now fresh (some j)
        = (Except.ok ⟨1⟩,
           some (st ++ [⟨fresh, t, some ⟨stringifyVal c.toJS⟩, now, now, false⟩])) := by
    intro st now fresh j c t hts htne hjc habs
    rw [handleCreateJournal]
    rw [hts, hjc, serialize_content_param]
    have hf2 : falsyOptStr (some t) = false := by
      simp [falsyOptStr, htne]
    simp only [hf2, Bool.false_eq_true, if_false, titleParam]
    rw [create_fresh st now fresh t _ habs]
    rfl
  have hfindnew : ∀ (st : List Row) (fresh : String) (row : Row),
      (∀ r ∈ st, r.id ≠ fresh) → row.id = fresh →
      (st ++ [row]).find? (fun x => x.id == fresh) = some row := by
    intro st fresh row habs hrid
    rw [List.find?_append,
      show st.find? (fun x => x.id == fresh) = none from
        List.find?_eq_none.mpr (fun x hx => by simp [habs x hx])]
    simp [List.find?, hrid]
  refine ⟨?_, ?_, ?_, ?_, ?_, ?_, rfl⟩
  · intro st now fresh j c t hts htne hjc hfne habs
    refine ⟨_, hcreate st now fresh j c t hts htne hjc habs, ?_⟩
    rw [getJournal_found _ _ _ (hfindnew st fresh _ habs rfl) hfne,
      transformRow_content _ c rfl]
  · intro st now fresh j c t hts htne hjc hfne habs
    refine ⟨_, hcreate st now fresh j c t hts htne hjc habs, _, rfl, ?_, ?_⟩
    · rw [show (⟨fresh, t, c.toJS, now, now, false⟩ : RowOut)
          = transformRow ⟨fresh, t, some ⟨stringifyVal c.toJS⟩, now, now, false⟩ from
        (transformRow_content ⟨fresh, t, some ⟨stringifyVal c.toJS⟩, now, now, false⟩
          c rfl).symm]
      exact List.mem_map_of_mem transformRow
        ((List.mergeSort_perm _ _).mem_iff.mpr (List.mem_append_right _ (by simp)))
    · intro out hout houtid
      rcases List.mem_map.mp hout with ⟨row, hrowmem, rfl⟩
      have hrow' : row ∈ st ++ [⟨fresh, t, some ⟨stringifyVal c.toJS⟩, now, now, false⟩] :=
        (List.mergeSort_perm _ _).mem_iff.mp hrowmem
      rcases List.mem_append.mp hrow' with hmem | hmem
      · exact absurd (by simpa [transformRow] using houtid) (habs row hmem)
      · simp only [List.mem_singleton] at hmem
        subst hmem
        rw [transformRow_content _ c rfl]
  · intro st now j c i tt hji hine hjt hjc hex
    have hupd : handleUpdateJournal (some st) now (some j)
        = (Except.ok ⟨st.countP (fun row => row.id == i)⟩,
           some (st.map (fun row => if row.id == i then
             { row with title := tt, content := some ⟨stringifyVal c.toJS⟩, updated_at := now }
             else row))) := by
      rw [handleUpdateJournal]
      rw [hji, hjt, hjc, serialize_content_param]
      have hf2 : falsyOptStr (some i) = false := by
        simp [falsyOptStr, hine]
      simp only [hf2, Bool.false_eq_true, if_false, titleParam, Option.getD_some]
      rw [update_hit st now i tt _ hex]
      rfl
    rcases find?_updated i tt (some ⟨stringifyVal c.toJS⟩) now st hex
      with ⟨row0, hmem, hid0, hfind⟩
    refine ⟨_, _, hupd, _, getJournal_found _ _ _ hfind hine, ?_⟩
    rw [transformRow_content _ c rfl]
    exact ⟨hid0, rfl, rfl, rfl⟩
  · intro st now j c i tt hji hine hjt hjc hex
    have hupd : handleUpdateJournal (some st) now (some j)
        = (Except.ok ⟨st.countP (fun row => row.id == i)⟩,
           some (st.map (fun row => if row.id == i then
             { row with title := tt, content := some ⟨stringifyVal c.toJS⟩, updated_at := now }
             else row))) := by
      rw [handleUpdateJournal]
      rw [hji, hjt, hjc, serialize_content_param]
      have hf2 : falsyOptStr (some i) = false := by
        simp [falsyOptStr, hine]
      simp only [hf2, Bool.false_eq_true, if_false, titleParam, Option.getD_some]
      rw [update_hit st now i tt _ hex]
      rfl
    refine ⟨_, _, hupd, _, rfl, ?_⟩
    intro out hout houtid
    rcases List.mem_map.mp hout with ⟨row', hrowmem, rfl⟩
    have hrow' : row' ∈ st.map (fun row => if row.id == i then
        { row with title := tt, content := some ⟨stringifyVal c.toJS⟩, updated_at := now }
        else row) :=
      (List.mergeSort_perm _ _).mem_iff.mp hrowmem
    rcases List.mem_map.mp hrow' with ⟨row, hrow, rfl⟩
    by_cases hid : row.id = i
    · rw [if_pos (by simp [hid])]
      rw [if_pos (by simp [hid])] at houtid
      rw [transformRow_content _ c rfl]
    · rw [if_neg (by simp [hid])] at houtid
      exact absurd (by simpa [transformRow] using houtid) hid
  · intro st i row s hfind hine hc hne hp
    rw [getJournal_found _ _ _ hfind hine, transformRow_malformed row s hc hne hp]
  · intro st row hrow s hc hne hp
    refine ⟨_, rfl, ?_⟩
    rw [← transformRow_malformed row s hc hne hp]
    exact List.mem_map_of_mem transformRow ((List.mergeSort_perm _ _).mem_iff.mpr hrow)

theorem C4_witness :
    handleGetJournal
      ((handleCreateJournal (some []) 0 "id-1"
        (some ⟨none, some "Day 1", (⟨["woke up"], [], []⟩ : ContentStruct).toJS⟩)).2)
      (some "id-1")
      = Except.ok (some ⟨"id-1", "Day 1",
          (⟨["woke up"], [], []⟩ : ContentStruct).toJS, 0, 0, false⟩) := by
  obtain ⟨st', hcr, hget⟩ := C4_roundtrip.1 [] 0 "id-1"
    ⟨none, some "Day 1", (⟨["woke up"], [], []⟩ : ContentStruct).toJS⟩
    ⟨["woke up"], [], []⟩ "Day 1" rfl (by decide) rfl (by decide) (by simp)
  rw [hcr]
  exact hget

end Editor
